import Mathlib

/-!
Verification of the gitkit smart-HTTP server core (`http.go`, `credential.go`)
against its natural-language specification.

Go strings are embedded as `List Char`; the filesystem and the external
`git` executable are modelled as explicit environment data threaded through
the embedded handlers.  Machinery that lives outside the two source files
(the pkt-line framer, `getNamespaceAndRepo`, the process-group cleanup
helper, the Go standard library) is modelled from the specification and
marked as such in its doc comment.
-/

namespace Gitkit

/-- Go strings, embedded as lists of characters. -/
abbrev Str := List Char

/-- Identifier of one of the six registered handler functions. -/
inductive HandlerId
  | getInfoRefs | postRPC | listRepo | createRepo | deleteRepo
deriving DecidableEq, Repr

/-- Embeds the `service` struct of `http.go`: HTTP method, URL-path
suffix to match, handler, and protocol-RPC name (empty when unused). -/
structure Service where
  method : Str
  suffix : Str
  handler : HandlerId
  rpc : Str
deriving DecidableEq, Repr

def mGET : Str := "GET".toList
def mPOST : Str := "POST".toList
def mDELETE : Str := "DELETE".toList
def sfxInfoRefs : Str := "/info/refs".toList
def sfxUploadPack : Str := "/git-upload-pack".toList
def sfxReceivePack : Str := "/git-receive-pack".toList
def sfxRepos : Str := "/repos".toList
def sfxRepo : Str := "/repo".toList
def rpcUploadPack : Str := "git-upload-pack".toList
def rpcReceivePack : Str := "git-receive-pack".toList

/-- The service table registered in `New` (`http.go`), in order;
first match wins. -/
def services : List Service :=
  [ ⟨mGET, sfxInfoRefs, .getInfoRefs, []⟩,
    ⟨mPOST, sfxUploadPack, .postRPC, rpcUploadPack⟩,
    ⟨mPOST, sfxReceivePack, .postRPC, rpcReceivePack⟩,
    ⟨mGET, sfxRepos, .listRepo, []⟩,
    ⟨mPOST, sfxRepo, .createRepo, []⟩,
    ⟨mDELETE, sfxRepo, .deleteRepo, []⟩ ]

/-- Embeds Go `strings.Replace(s, pat, "", 1)` as used in `findService`:
remove the first occurrence of `pat` from `s` (no-op when absent). -/
def replaceFirst : Str → Str → Str
  | [], _ => []
  | c :: rest, pat =>
    if pat <+: (c :: rest) then List.drop pat.length (c :: rest)
    else c :: replaceFirst rest pat

/-- Embeds `findService` (`http.go` lines 68-76): scan the service table in
order; on the first entry whose method equals the request method and whose
suffix is a suffix of the URL path, return the service together with the
path after removing the first occurrence of the suffix. -/
def findServiceAux (m p : Str) : List Service → Option (Service × Str)
  | [] => none
  | svc :: rest =>
    if svc.method = m ∧ svc.suffix <:+ p then some (svc, replaceFirst p svc.suffix)
    else findServiceAux m p rest

def findService (m p : Str) : Option (Service × Str) :=
  findServiceAux m p services

/-- Embeds the `Credential` struct of `credential.go`. -/
structure Credential where
  username : Str
  password : Str
  token : Str
deriving DecidableEq, Repr

/-- An inbound HTTP request as the two source files observe it.  The result
of the Go standard library call `req.BasicAuth()` is carried as a field
(`none` when the header is not a well-formed Basic credential), since
`net/http` is outside this repository. -/
structure HttpRequest where
  method : Str
  host : Str
  urlPath : Str
  requestURI : Str
  /-- value of `Header.Get "Authorization"` (`[]` when absent) -/
  authorization : Str
  /-- result of `req.BasicAuth()` -/
  basicAuth : Option (Str × Str)
deriving DecidableEq, Repr

/-- Embeds `tokenAuth` (`credential.go` lines 33-38): returns the raw
`Authorization` header value when it is non-empty. -/
def tokenAuth (r : HttpRequest) : Option Str :=
  if r.authorization ≠ [] then some r.authorization else none

/-- Embeds `getCredential` (`credential.go` lines 14-31): prefer the basic
pair; otherwise fall back to the whole header as a bearer token; error only
when both are unavailable. -/
def getCredential (r : HttpRequest) : Except Str Credential :=
  match r.basicAuth with
  | some (u, p) => .ok ⟨u, p, []⟩
  | none =>
    match tokenAuth r with
    | some t => .ok ⟨[], [], t⟩
    | none => .error "authentication failed".toList

/-- The credential `getCredential` yields on the non-error paths. -/
def credentialOf (r : HttpRequest) : Credential :=
  match r.basicAuth with
  | some (u, p) => ⟨u, p, []⟩
  | none => ⟨[], [], r.authorization⟩

/-- Embeds the relevant fields of `Config` (auth required, auto-create,
root directory). -/
structure Config where
  auth : Bool
  autoCreate : Bool
  dir : Str
deriving Repr

/-- Embeds the `Request` struct of `http.go`: the wrapped request data the
handlers read, plus the derived repository name and filesystem path. -/
structure Request where
  method : Str
  requestURI : Str
  authorization : Str
  basicAuth : Option (Str × Str)
  repoName : Str
  repoPath : Str
deriving DecidableEq, Repr

/-- Embeds the `Server` struct: configuration plus the injected auth
decision capability (`AuthFunc`, possibly nil).  The capability's error is
modelled as `Option Str`. -/
structure Server where
  config : Config
  authFunc : Option (Credential → Request → Bool × Option Str)

/-- Embeds Go `path.Join` on two components as used here: empty components
are skipped, the rest are joined with `/`.  (The `Clean` step of the Go
function is not modelled; no input in this development contains dot
segments or doubled slashes.) -/
def pathJoin (a b : Str) : Str :=
  if a = [] then b else if b = [] then a else a ++ '/' :: b

/-- Modelled from the spec: `getNamespaceAndRepo` is not in the two source
files; §4.1 describes it as "parsing the remainder into a namespace prefix
and a leaf name".  Modelled as splitting at the last slash (no slash:
everything is the leaf, empty input gives two empty parts). -/
def getNamespaceAndRepo (s : Str) : Str × Str :=
  if '/' ∈ s then
    (((s.reverse.dropWhile (fun c => c != '/')).drop 1).reverse,
     (s.reverse.takeWhile (fun c => c != '/')).reverse)
  else ([], s)

/-- The filesystem as `os.Stat` observes it: the list of paths at which a
stat call succeeds. -/
abbrev FS := List Str

/-- Embeds `repoExists` (`http.go` lines 359-362): a repository exists at
`p` iff stat on `p/objects` succeeds. -/
def repoExists (fs : FS) (p : Str) : Prop :=
  pathJoin p "objects".toList ∈ fs

instance (fs : FS) (p : Str) : Decidable (repoExists fs p) := by
  unfold repoExists; infer_instance

/-- One entry of the structured log sink (`logInfo` / `logError`). -/
inductive LogEntry
  | info (ctx msg : Str)
  | error (ctx msg : Str)
deriving DecidableEq, Repr

def ctxRequest : Str := "request".toList
def ctxAuth : Str := "auth".toList
def ctxRepoInit : Str := "repo-init".toList

/-- Per-request environment: the filesystem at dispatch time, and the
outcome of the (at most one) `initRepo` call the request may make — the
error `git init --bare` reported, if any, and the filesystem left behind by
that external process. -/
structure Env where
  fs : FS
  initErr : Option Str
  initFs : FS

/-- How `ServeHTTP` (`http.go` lines 78-158) disposed of the request:
either one of its own terminal responses, or dispatch to a handler. -/
inductive DispatchOutcome
  | forbidden
  | badRequestEmptyName
  | unauthNoBackend
  | unauthNoHeader
  | unauthBadCredential (e : Str)
  | unauthDenied (authErr : Option Str)
  | notFound
  | dispatched (h : HandlerId) (req : Request)
deriving DecidableEq, Repr

/-- HTTP status code `ServeHTTP` itself writes (`none` once a handler is
dispatched and owns the response). -/
def statusOf : DispatchOutcome → Option Nat
  | .forbidden => some 403
  | .badRequestEmptyName => some 400
  | .unauthNoBackend => some 401
  | .unauthNoHeader => some 401
  | .unauthBadCredential _ => some 401
  | .unauthDenied _ => some 401
  | .notFound => some 404
  | .dispatched _ _ => none

/-- The `WWW-Authenticate` header value `ServeHTTP` sets, if any: only the
missing-header branch sets it (`http.go` line 113). -/
def wwwAuthenticateOf : DispatchOutcome → Option Str
  | .unauthNoHeader => some "Basic realm=\"\"".toList
  | _ => none

/-- Response body bytes written by `ServeHTTP` itself: `http.Error` and
`http.NotFound` write a message line, the `WriteHeader`-only branches write
nothing, a dispatched handler owns the body. -/
def dispatcherBody : DispatchOutcome → Str
  | .forbidden => "Forbidden\n".toList
  | .notFound => "404 page not found\n".toList
  | _ => []

/-- Result of the embedded `ServeHTTP`: outcome, whether the auto-create
`initRepo` call was made, and the accumulated log. -/
structure ServeResult where
  outcome : DispatchOutcome
  autoCreateTried : Bool
  logs : List LogEntry
deriving DecidableEq, Repr

/-- The request context `ServeHTTP` builds (`http.go` lines 98-102) from
the path remainder returned by `findService`. -/
def requestOf (srv : Server) (r : HttpRequest) (repoUrlPath : Str) : Request :=
  let nr := getNamespaceAndRepo repoUrlPath
  { method := r.method, requestURI := r.requestURI,
    authorization := r.authorization, basicAuth := r.basicAuth,
    repoName := pathJoin nr.1 nr.2,
    repoPath := pathJoin (pathJoin srv.config.dir nr.1) nr.2 }

def msgNoRepoName : Str := "no repo name provided".toList
def msgNoBackend : Str := "no auth backend provided".toList
def msgRejected : Str := "rejected user ".toList
def msgDoesNotExist : Str := " does not exist".toList

/-- The log entry, if any, produced by the auto-create `initRepo` call:
its error is logged but does not abort the request. -/
def initLog (env : Env) : List LogEntry :=
  match env.initErr with
  | some e => [LogEntry.error ctxRepoInit e]
  | none => []

/-- Embeds `ServeHTTP` lines 137-157: the create/list carve-out, the
auto-create step, the fail-closed existence re-check, and handler
dispatch. -/
def postAuthDispatch (srv : Server) (env : Env) (svc : Service)
    (req : Request) (logs : List LogEntry) : ServeResult :=
  if (req.method = mPOST ∧ sfxRepo <:+ req.requestURI) ∨
     (req.method = mGET ∧ sfxRepos <:+ req.requestURI) then
    ⟨.dispatched svc.handler req, false, logs⟩
  else if ¬ repoExists env.fs req.repoPath ∧ srv.config.autoCreate = true then
    if ¬ repoExists env.initFs req.repoPath then
      ⟨.notFound, true,
        logs ++ initLog env ++
          [LogEntry.error ctxRepoInit (req.repoPath ++ msgDoesNotExist)]⟩
    else
      ⟨.dispatched svc.handler req, true, logs ++ initLog env⟩
  else if ¬ repoExists env.fs req.repoPath then
    ⟨.notFound, false, logs ++ [LogEntry.error ctxRepoInit (req.repoPath ++ msgDoesNotExist)]⟩
  else
    ⟨.dispatched svc.handler req, false, logs⟩

/-- Embeds `ServeHTTP` lines 104-135: the authentication gate. -/
def authStage (srv : Server) (env : Env) (r : HttpRequest) (svc : Service)
    (req : Request) (logs : List LogEntry) : ServeResult :=
  if srv.config.auth = true then
    match srv.authFunc with
    | none => ⟨.unauthNoBackend, false, logs ++ [LogEntry.error ctxAuth msgNoBackend]⟩
    | some f =>
      if r.authorization = [] then
        ⟨.unauthNoHeader, false, logs⟩
      else
        match getCredential r with
        | .error e => ⟨.unauthBadCredential e, false, logs ++ [LogEntry.error ctxAuth e]⟩
        | .ok cred =>
          if (f cred req).1 = false ∨ (f cred req).2.isSome = true then
            ⟨.unauthDenied (f cred req).2, false,
              logs ++ (match (f cred req).2 with
                | some e => [LogEntry.error ctxAuth e]
                | none => []) ++ [LogEntry.error ctxAuth (msgRejected ++ cred.username)]⟩
          else
            postAuthDispatch srv env svc req logs
  else
    postAuthDispatch srv env svc req logs

/-- Embeds `ServeHTTP` (`http.go` lines 78-158): route the request, derive
the repository name (skipping the check for the list endpoint), run the
auth gate, then existence/auto-create, then dispatch. -/
def logs0 (r : HttpRequest) : List LogEntry :=
  [LogEntry.info ctxRequest (r.method ++ ' ' :: (r.host ++ r.requestURI))]

def serveHTTP (srv : Server) (env : Env) (r : HttpRequest) : ServeResult :=
  match findService r.method r.urlPath with
  | none => ⟨.forbidden, false, logs0 r⟩
  | some (svc, repoUrlPath) =>
    if ¬ (r.method = mGET ∧ sfxRepos <:+ r.requestURI) ∧
        (getNamespaceAndRepo repoUrlPath).2 = [] then
      ⟨.badRequestEmptyName, false, logs0 r ++ [LogEntry.error ctxAuth msgNoRepoName]⟩
    else
      authStage srv env r svc (requestOf srv r repoUrlPath) (logs0 r)

/-- Lowercase hexadecimal digit for a value below 16. -/
def hexDigit (n : Nat) : Char :=
  if n < 10 then Char.ofNat (48 + n) else Char.ofNat (87 + n)

/-- 4-character lowercase, zero-padded hexadecimal rendering of `n`
(all lengths arising here are far below `16^4`). -/
def toHex4 (n : Nat) : Str :=
  [hexDigit (n / 4096 % 16), hexDigit (n / 256 % 16),
   hexDigit (n / 16 % 16), hexDigit (n % 16)]

/-- Modelled from the spec: `packLine` is not in the two source files; §4.4
says a line is emitted as a 4-character lowercase-hexadecimal zero-padded
length — counting the prefix's own 4 bytes plus the payload length —
followed immediately by the payload bytes. -/
def pktLine (payload : Str) : Str :=
  toHex4 (payload.length + 4) ++ payload

/-- Modelled from the spec: `packFlush` is not in the two source files;
§4.4 says the flush marker is the literal 4-byte sequence `"0000"` with no
payload. -/
def pktFlush : Str := "0000".toList

/-- The announcement line `getInfoRefs` frames:
`fmt.Sprintf("# service=%s\n", rpc)`. -/
def svcAnnounce (rpc : Str) : Str :=
  "# service=".toList ++ rpc ++ ['\n']

def ctxGetInfoRefs : Str := "get-info-refs".toList
def ctxPostRPC : Str := "post-rpc".toList

/-- Environment for one protocol-handler invocation: the error, if any,
that each fallible step reports.  A client disconnect surfaces as a copy
error on the response writer. -/
structure ProcEnv where
  gzipErr : Option Str
  stdinPipeErr : Option Str
  startErr : Option Str
  copyInErr : Option Str
  packLineErr : Option Str
  packFlushErr : Option Str
  copyOutErr : Option Str
  waitErr : Option Str
deriving DecidableEq, Repr

/-- Result of the embedded `getInfoRefs`: whether `cmd.Start()` succeeded,
whether the deferred process-group termination ran before returning, the
status written, the handshake bytes emitted ahead of the subprocess
output, and the log. -/
structure InfoRefsResult where
  started : Bool
  cleanedUp : Bool
  status : Option Nat
  handshake : Str
  logs : List LogEntry
deriving DecidableEq, Repr

/-- Embeds `getInfoRefs` (`http.go` lines 160-199).  The
`defer cleanUpProcessGroup(cmd)` registered right after a successful start
is made explicit: every exit of the remaining body sets `cleanedUp`
(modelled from the spec: `cleanUpProcessGroup` itself is outside the two
source files; §4.5 says it terminates the entire process group). -/
def getInfoRefs (env : ProcEnv) (rpc : Str) : InfoRefsResult :=
  if ¬ (rpc = rpcUploadPack ∨ rpc = rpcReceivePack) then
    ⟨false, false, some 404, [], []⟩
  else
    match env.startErr with
    | some e => ⟨false, false, some 500, [], [LogEntry.error ctxGetInfoRefs e]⟩
    | none =>
      let body : InfoRefsResult :=
        match env.packLineErr with
        | some e => ⟨true, false, some 200, [], [LogEntry.error ctxGetInfoRefs e]⟩
        | none =>
          match env.packFlushErr with
          | some e =>
            ⟨true, false, some 200, pktLine (svcAnnounce rpc),
              [LogEntry.error ctxGetInfoRefs e]⟩
          | none =>
            match env.copyOutErr with
            | some e =>
              ⟨true, false, some 200, pktLine (svcAnnounce rpc) ++ pktFlush,
                [LogEntry.error ctxGetInfoRefs e]⟩
            | none =>
              match env.waitErr with
              | some e =>
                ⟨true, false, some 200, pktLine (svcAnnounce rpc) ++ pktFlush,
                  [LogEntry.error ctxGetInfoRefs e]⟩
              | none =>
                ⟨true, false, some 200, pktLine (svcAnnounce rpc) ++ pktFlush, []⟩
      { body with cleanedUp := true }

/-- Result of the embedded `postRPC`. -/
structure RPCResult where
  started : Bool
  cleanedUp : Bool
  status : Option Nat
  logs : List LogEntry
deriving DecidableEq, Repr

/-- Embeds `postRPC` (`http.go` lines 201-247): gzip unwrap, stdin pipe,
start (with the deferred group cleanup made explicit as in `getInfoRefs`),
copy the body in, then stream the output through the flushing writer and
wait. -/
def postRPC (env : ProcEnv) (gzipEncoded : Bool) : RPCResult :=
  match (if gzipEncoded then env.gzipErr else none) with
  | some e => ⟨false, false, some 500, [LogEntry.error ctxPostRPC e]⟩
  | none =>
    match env.stdinPipeErr with
    | some e => ⟨false, false, some 500, [LogEntry.error ctxPostRPC e]⟩
    | none =>
      match env.startErr with
      | some e => ⟨false, false, some 500, [LogEntry.error ctxPostRPC e]⟩
      | none =>
        let body : RPCResult :=
          match env.copyInErr with
          | some e => ⟨true, false, some 500, [LogEntry.error ctxPostRPC e]⟩
          | none =>
            match env.copyOutErr with
            | some e => ⟨true, false, some 200, [LogEntry.error ctxPostRPC e]⟩
            | none =>
              match env.waitErr with
              | some e => ⟨true, false, some 200, [LogEntry.error ctxPostRPC e]⟩
              | none => ⟨true, false, some 200, []⟩
        { body with cleanedUp := true }

/-- Result of the embedded `createRepo`: status, whether `initRepo` was
invoked, the filesystem afterwards, and the log. -/
structure CreateResult where
  status : Nat
  initTried : Bool
  fs : FS
  logs : List LogEntry
deriving DecidableEq, Repr

/-- Embeds `createRepo` (`http.go` lines 249-273): when no repository
exists at the target path, run `initRepo` (500 on failure, 201 on
success); when it already exists, 409 with no initialization. -/
def createRepo (env : Env) (req : Request) : CreateResult :=
  if ¬ repoExists env.fs req.repoPath then
    match env.initErr with
    | some e => ⟨500, true, env.initFs, [LogEntry.error ctxRepoInit e]⟩
    | none => ⟨201, true, env.initFs, []⟩
  else ⟨409, false, env.fs, []⟩

/-- A directory entry as `os.ReadDir` reports it. -/
structure DirEnt where
  name : Str
  isDir : Bool
deriving DecidableEq, Repr

/-- The filesystem as `os.ReadDir` observes it, keyed by the literal path
string passed to the call.  A key with no leading slash is a relative path
and resolves against the process working directory, so a bare leaf name
and the root-joined path are distinct keys naming distinct directories. -/
structure DirFS where
  readDir : Str → Except Str (List DirEnt)

def gitDirSfx : Str := ".git".toList
def ctxListRepo : Str := "list repo".toList

/-- Inner loop of `listRepo` (`http.go` lines 283-296).  Note the source
reads `os.ReadDir(repoDir.Name())` — the bare first-level leaf name — for
the second level. -/
def listRepoAux (dfs : DirFS) : List DirEnt → Except Str (List Str)
  | [] => .ok []
  | rd :: rest =>
    if rd.isDir = true then
      match dfs.readDir rd.name with
      | .error e => .error e
      | .ok subDirs =>
        match listRepoAux dfs rest with
        | .error e => .error e
        | .ok more =>
          .ok (((subDirs.filter
                  (fun d => d.isDir && decide (gitDirSfx <:+ d.name))).map
                (fun d => pathJoin rd.name d.name)) ++ more)
    else listRepoAux dfs rest

/-- Result of the embedded `listRepo`. -/
structure ListResult where
  status : Nat
  repos : Option (List Str)
  logs : List LogEntry
deriving DecidableEq, Repr

/-- Embeds `listRepo` (`http.go` lines 275-306): read the configured root
directory, walk its directory entries collecting `namespace/leaf` pairs
whose leaf ends in `.git`, pass them through the injected filter, respond
200 (500 on any read error). -/
def listRepo (dfs : DirFS) (dir : Str) (filterRepo : List Str → List Str) :
    ListResult :=
  match dfs.readDir dir with
  | .error e => ⟨500, none, [LogEntry.error ctxListRepo e]⟩
  | .ok dirs =>
    match listRepoAux dfs dirs with
    | .error e => ⟨500, none, [LogEntry.error ctxListRepo e]⟩
    | .ok repos => ⟨200, some (filterRepo repos), []⟩

/-- Modelled from the spec: the listing behaviour §4.3 describes —
"enumerates immediate subdirectories of the root, and within each,
subdirectories whose name ends in the repository suffix convention
(`.git`)" — with the second level read from under the root directory.
Identical to `listRepoAux` except that the second-level read is rooted at
the configured directory. -/
def listRepoSpecAux (dfs : DirFS) (dir : Str) : List DirEnt → Except Str (List Str)
  | [] => .ok []
  | rd :: rest =>
    if rd.isDir = true then
      match dfs.readDir (pathJoin dir rd.name) with
      | .error e => .error e
      | .ok subDirs =>
        match listRepoSpecAux dfs dir rest with
        | .error e => .error e
        | .ok more =>
          .ok (((subDirs.filter
                  (fun d => d.isDir && decide (gitDirSfx <:+ d.name))).map
                (fun d => pathJoin rd.name d.name)) ++ more)
    else listRepoSpecAux dfs dir rest

/-- Modelled from the spec: the whole listing operation as §4.3 describes
it, for comparison with the embedded `listRepo`. -/
def listRepoSpecModel (dfs : DirFS) (dir : Str)
    (filterRepo : List Str → List Str) : ListResult :=
  match dfs.readDir dir with
  | .error e => ⟨500, none, [LogEntry.error ctxListRepo e]⟩
  | .ok dirs =>
    match listRepoSpecAux dfs dir dirs with
    | .error e => ⟨500, none, [LogEntry.error ctxListRepo e]⟩
    | .ok repos => ⟨200, some (filterRepo repos), []⟩

/-! ## Concrete instances used by the evaluation theorems below -/

def envAllOk : ProcEnv := ⟨none, none, none, none, none, none, none, none⟩

def envDisconnect : ProcEnv := ⟨none, none, none, none, none, none,
  some "client disconnected".toList, none⟩

def reqBearer : HttpRequest :=
  ⟨mGET, "h".toList, "/ns/r.git/info/refs".toList, "/ns/r.git/info/refs".toList,
    "token abc123".toList, none⟩

def req9 : Request :=
  ⟨mPOST, "/ns/r.git/repo".toList, [], none, "ns/r.git".toList, "/srv/ns/r.git".toList⟩

def env9 : Env := ⟨[], none, [pathJoin "/srv/ns/r.git".toList "objects".toList]⟩

/-- The root directory used in the C2 evaluation. -/
def rootC2 : Str := "/srv/root".toList

/-- Directory filesystem for the C2 evaluation: the configured root
contains one namespace directory `ns`, under which (at the absolute path
`/srv/root/ns`) sits `real.git`; the process working directory happens to
contain an unrelated directory also called `ns` holding `cwd.git`. -/
def dfsC2 : DirFS where
  readDir p :=
    if p = rootC2 then .ok [⟨"ns".toList, true⟩]
    else if p = "ns".toList then .ok [⟨"cwd.git".toList, true⟩]
    else if p = pathJoin rootC2 "ns".toList then .ok [⟨"real.git".toList, true⟩]
    else .error "no such directory".toList

/-- Modelled from the spec for comparison: removing the suffix "from the
end" of the path, as the C3 reading of §4.1 states it — take everything
before the trailing occurrence. -/
def stripTrailingSfx (s suf : Str) : Str := s.take (s.length - suf.length)

/-- Request used in the C5 and C6 witnesses and the C6 counterexample. -/
def rInfoRefs (auth : Str) (ba : Option (Str × Str)) : HttpRequest :=
  ⟨mGET, "h".toList, "/ns/r.git/info/refs".toList, "/ns/r.git/info/refs".toList,
    auth, ba⟩

def fDeny : Credential → Request → Bool × Option Str := fun _ _ => (false, none)

def srvDeny : Server := ⟨⟨true, false, "/srv".toList⟩, some fDeny⟩

def envEmpty : Env := ⟨[], none, []⟩

def svcInfoRefs : Service := ⟨mGET, sfxInfoRefs, HandlerId.getInfoRefs, []⟩

def r5 : HttpRequest :=
  rInfoRefs "Basic Zm9vOmJhcg==".toList (some ("foo".toList, "bar".toList))

/-- The server of the C6 counterexample: authentication required but no
auth decision capability injected. -/
def srvNoBackend : Server := ⟨⟨true, false, "/srv".toList⟩, none⟩

def r6 : HttpRequest := rInfoRefs [] none

def srvAuto : Server := ⟨⟨false, true, "/srv".toList⟩, none⟩

def r7 : HttpRequest := rInfoRefs [] none

def envInitFail : Env := ⟨[], some "exit status 1".toList, []⟩

def svcCreateRepo : Service := ⟨mPOST, sfxRepo, HandlerId.createRepo, []⟩

def r8 : HttpRequest :=
  ⟨mPOST, "h".toList, "/ns/r.git/repo".toList, "/ns/r.git/repo".toList, [], none⟩

/-! ## Helper lemmas -/

lemma getInfoRefs_cleanup_of_started (env : ProcEnv) (rpc : Str) :
    (getInfoRefs env rpc).started = true → (getInfoRefs env rpc).cleanedUp = true := by
  unfold getInfoRefs
  split
  · intro h; simp at h
  · split
    · intro h; simp at h
    · intro _; rfl

lemma postRPC_cleanup_of_started (env : ProcEnv) (gz : Bool) :
    (postRPC env gz).started = true → (postRPC env gz).cleanedUp = true := by
  unfold postRPC
  split
  · intro h; simp at h
  · split
    · intro h; simp at h
    · split
      · intro h; simp at h
      · intro _; rfl

lemma getCredential_eq_ok (r : HttpRequest) (h : r.authorization ≠ []) :
    getCredential r = Except.ok (credentialOf r) := by
  unfold getCredential credentialOf tokenAuth
  cases hba : r.basicAuth with
  | none => simp [h]
  | some up => rfl

/-! ## Claim theorems -/

/-- C1: for every protocol request (info/refs or stateless-RPC) in which
the subprocess was successfully started, the deferred process-group
termination runs before the handler returns, on every exit path (normal
completion, pkt-line write error, copy error in either direction, wait
error, client disconnect surfacing as a copy error): an abandoned
subprocess never outlives the request. -/
theorem protocol_handlers_terminate_process_group
    (envA envB : ProcEnv) (rpc : Str) (gz : Bool)
    (hA : (getInfoRefs envA rpc).started = true)
    (hB : (postRPC envB gz).started = true) :
    (getInfoRefs envA rpc).cleanedUp = true ∧ (postRPC envB gz).cleanedUp = true :=
  ⟨getInfoRefs_cleanup_of_started envA rpc hA, postRPC_cleanup_of_started envB gz hB⟩

theorem protocol_handlers_terminate_process_group_witness :
    (getInfoRefs envDisconnect rpcUploadPack).started = true ∧
    (postRPC envAllOk false).started = true ∧
    ((getInfoRefs envDisconnect rpcUploadPack).cleanedUp = true ∧
      (postRPC envAllOk false).cleanedUp = true) :=
  ⟨by decide, by decide,
    protocol_handlers_terminate_process_group envDisconnect envAllOk rpcUploadPack false
      (by decide) (by decide)⟩

/-- C4: for the info/refs handler with service name `git-upload-pack`, the
handshake emitted before the subprocess output is exactly the byte
sequence `"001e# service=git-upload-pack\n0000"`: the pkt-line of the
announcement (whose 4-character lowercase zero-padded hex length counts
its own 4 bytes plus the 26 payload bytes) followed by the flush
marker. -/
theorem getInfoRefs_upload_pack_handshake (env : ProcEnv)
    (h1 : env.startErr = none) (h2 : env.packLineErr = none)
    (h3 : env.packFlushErr = none) :
    (getInfoRefs env rpcUploadPack).handshake =
      "001e# service=git-upload-pack\n0000".toList := by
  have key : pktLine (svcAnnounce rpcUploadPack) ++ pktFlush =
      "001e# service=git-upload-pack\n0000".toList := by decide
  cases hco : env.copyOutErr <;> cases hw : env.waitErr <;>
    · simp only [getInfoRefs, h1, h2, h3, hco, hw]
      rw [if_neg (not_not_intro (Or.inl trivial))]
      exact key

theorem getInfoRefs_upload_pack_handshake_witness :
    envAllOk.startErr = none ∧ envAllOk.packLineErr = none ∧
    envAllOk.packFlushErr = none ∧
    (getInfoRefs envAllOk rpcUploadPack).handshake =
      "001e# service=git-upload-pack\n0000".toList :=
  ⟨rfl, rfl, rfl,
    getInfoRefs_upload_pack_handshake envAllOk rfl rfl rfl⟩

/-- C10: for every request whose `Authorization` header is non-empty,
credential extraction never returns an error: a well-formed Basic
credential yields username and password with an empty token, anything else
yields the entire raw header verbatim as the token with username and
password empty — so at most one of the two forms is ever populated, and
the failure branch is unreachable under the dispatcher's non-empty-header
precondition. -/
theorem getCredential_nonempty_header_never_errors (r : HttpRequest)
    (h : r.authorization ≠ []) :
    getCredential r = Except.ok (credentialOf r) ∧
    (∀ u p, r.basicAuth = some (u, p) → credentialOf r = ⟨u, p, []⟩) ∧
    (r.basicAuth = none → credentialOf r = ⟨[], [], r.authorization⟩) ∧
    ((credentialOf r).token = [] ∨
      ((credentialOf r).username = [] ∧ (credentialOf r).password = [])) := by
  refine ⟨getCredential_eq_ok r h, ?_, ?_, ?_⟩
  · intro u p hup
    unfold credentialOf
    rw [hup]
  · intro hn
    unfold credentialOf
    rw [hn]
  · unfold credentialOf
    cases hba : r.basicAuth with
    | none => exact Or.inr ⟨rfl, rfl⟩
    | some up =>
      obtain ⟨u, p⟩ := up
      exact Or.inl rfl

theorem getCredential_nonempty_header_never_errors_witness :
    reqBearer.authorization ≠ [] ∧
    (getCredential reqBearer = Except.ok (credentialOf reqBearer) ∧
      (∀ u p, reqBearer.basicAuth = some (u, p) → credentialOf reqBearer = ⟨u, p, []⟩) ∧
      (reqBearer.basicAuth = none →
        credentialOf reqBearer = ⟨[], [], reqBearer.authorization⟩) ∧
      ((credentialOf reqBearer).token = [] ∨
        ((credentialOf reqBearer).username = [] ∧ (credentialOf reqBearer).password = []))) :=
  ⟨by decide, getCredential_nonempty_header_never_errors reqBearer (by decide)⟩

/-- C9: when no `objects` entry exists under the target path and the
external init primitive succeeds (and, per the spec's notion of a bare
repository, leaves an object store behind — hypothesis `hinit`), `createRepo`
responds 201 and `repoExists` holds afterwards; when the target already
contains an `objects` entry, it responds 409, invokes no initialization and
leaves the filesystem unchanged. -/
theorem createRepo_initializes_or_conflicts (env : Env) (req : Request)
    (hinit : env.initErr = none → repoExists env.initFs req.repoPath) :
    (¬ repoExists env.fs req.repoPath → env.initErr = none →
      (createRepo env req).status = 201 ∧
      repoExists (createRepo env req).fs req.repoPath) ∧
    (repoExists env.fs req.repoPath →
      (createRepo env req).status = 409 ∧
      (createRepo env req).initTried = false ∧
      (createRepo env req).fs = env.fs) := by
  unfold createRepo
  constructor
  · intro hmiss hok
    rw [if_pos hmiss, hok]
    exact ⟨rfl, hinit hok⟩
  · intro hex
    rw [if_neg (not_not_intro hex)]
    exact ⟨rfl, rfl, rfl⟩

theorem createRepo_initializes_or_conflicts_witness :
    (env9.initErr = none → repoExists env9.initFs req9.repoPath) ∧
    ((¬ repoExists env9.fs req9.repoPath → env9.initErr = none →
        (createRepo env9 req9).status = 201 ∧
        repoExists (createRepo env9 req9).fs req9.repoPath) ∧
      (repoExists env9.fs req9.repoPath →
        (createRepo env9 req9).status = 409 ∧
        (createRepo env9 req9).initTried = false ∧
        (createRepo env9 req9).fs = env9.fs)) :=
  ⟨by decide, createRepo_initializes_or_conflicts env9 req9 (by decide)⟩

/-- C2 evaluation at the failing input: `listRepo` passes the bare
first-level leaf name to `os.ReadDir`, so it lists the unrelated `ns`
directory resolved against the process working directory and returns
`ns/cwd.git`, while the specified behaviour (second level read from under
the configured root) returns `ns/real.git`. -/
theorem listRepo_reads_relative_to_cwd_not_root :
    (listRepo dfsC2 rootC2 id).repos = some ["ns/cwd.git".toList] ∧
    (listRepoSpecModel dfsC2 rootC2 id).repos = some ["ns/real.git".toList] ∧
    (listRepo dfsC2 rootC2 id).repos ≠ (listRepoSpecModel dfsC2 rootC2 id).repos := by
  decide

lemma replaceFirst_first_occurrence (s : Str) (pat : Str) (hne : pat ≠ [])
    (hsuf : pat <:+ s) :
    ∃ a b, s = a ++ pat ++ b ∧ replaceFirst s pat = a ++ b ∧
      ∀ k, k < a.length → ¬ pat <+: s.drop k := by
  induction s with
  | nil =>
    exfalso
    obtain ⟨t, ht⟩ := hsuf
    exact hne (List.append_eq_nil.mp ht).2
  | cons c rest ih =>
    by_cases hp : pat <+: (c :: rest)
    · refine ⟨[], List.drop pat.length (c :: rest), ?_, ?_, ?_⟩
      · obtain ⟨t, ht⟩ := hp
        rw [← ht, List.nil_append, List.drop_left]
      · simp only [replaceFirst]
        rw [if_pos hp, List.nil_append]
      · intro k hk
        simp at hk
    · have hsuf' : pat <:+ rest := by
        rcases List.suffix_cons_iff.mp hsuf with h | h
        · exact absurd (h ▸ List.prefix_refl pat) hp
        · exact h
      obtain ⟨a, b, hsab, hrep, hmin⟩ := ih hsuf'
      refine ⟨c :: a, b, ?_, ?_, ?_⟩
      · simp [hsab]
      · simp only [replaceFirst]
        rw [if_neg hp, hrep, List.cons_append]
      · intro k hk
        cases k with
        | zero => simpa using hp
        | succ j =>
          have hj : j < a.length := by simpa using hk
          simpa using hmin j hj

lemma findServiceAux_sound (m p : Str) (l : List Service) (svc : Service)
    (rest : Str) (h : findServiceAux m p l = some (svc, rest)) :
    svc ∈ l ∧ svc.method = m ∧ svc.suffix <:+ p ∧
      rest = replaceFirst p svc.suffix := by
  induction l with
  | nil => simp [findServiceAux] at h
  | cons s ls ih =>
    rw [findServiceAux] at h
    split at h
    · rename_i hcond
      obtain ⟨h1, h2⟩ := Prod.mk.injEq .. ▸ Option.some.injEq .. ▸ h
      subst h1
      exact ⟨List.mem_cons_self .., hcond.1, hcond.2, h2.symm⟩
    · obtain ⟨hm, hrest⟩ := ih h
      exact ⟨List.mem_cons_of_mem _ hm, hrest⟩

lemma services_suffix_nonempty : ∀ svc ∈ services, svc.suffix ≠ [] := by decide

/-- C3 counterexample: for the GET info/refs service and the path
`/info/refs/a/info/refs`, in which the suffix also occurs before the end,
`findService` returns `/a/info/refs` (the first occurrence removed),
not `/info/refs/a` (the trailing occurrence removed). -/
theorem findService_trailing_strip_counterexample :
    (findService mGET "/info/refs/a/info/refs".toList).map Prod.snd =
      some "/a/info/refs".toList ∧
    stripTrailingSfx "/info/refs/a/info/refs".toList sfxInfoRefs =
      "/info/refs/a".toList ∧
    (findService mGET "/info/refs/a/info/refs".toList).map Prod.snd ≠
      some (stripTrailingSfx "/info/refs/a/info/refs".toList sfxInfoRefs) := by
  decide

/-- C3 amended: for every request matched to a registered service, the
repository identifier is derived by removing the FIRST occurrence of the
matched service's path suffix from the URL path (`strings.Replace` with
count 1); when the suffix occurs only at the end this coincides with
stripping the trailing occurrence, but when it also occurs earlier it is
the earliest occurrence that is removed. -/
theorem findService_removes_first_occurrence (m p : Str) (svc : Service)
    (rest : Str) (h : findService m p = some (svc, rest)) :
    ∃ a b, p = a ++ svc.suffix ++ b ∧ rest = a ++ b ∧
      ∀ k, k < a.length → ¬ svc.suffix <+: p.drop k := by
  obtain ⟨hmem, _, hsuf, hrest⟩ := findServiceAux_sound m p services svc rest h
  obtain ⟨a, b, h1, h2, h3⟩ :=
    replaceFirst_first_occurrence p svc.suffix (services_suffix_nonempty svc hmem) hsuf
  exact ⟨a, b, h1, hrest ▸ h2, h3⟩

lemma serveHTTP_eq_authStage (srv : Server) (env : Env) (r : HttpRequest)
    (svc : Service) (rest : Str)
    (hroute : findService r.method r.urlPath = some (svc, rest))
    (hname : (r.method = mGET ∧ sfxRepos <:+ r.requestURI) ∨
      (getNamespaceAndRepo rest).2 ≠ []) :
    serveHTTP srv env r = authStage srv env r svc (requestOf srv r rest) (logs0 r) := by
  unfold serveHTTP
  simp only [hroute]
  rw [if_neg]
  rcases hname with ⟨h1, h2⟩ | h
  · exact fun hc => hc.1 ⟨h1, h2⟩
  · exact fun hc => h hc.2

lemma authStage_pass (srv : Server) (env : Env) (r : HttpRequest)
    (svc : Service) (req : Request) (logs : List LogEntry)
    (hpass : srv.config.auth = false ∨
      (∃ f, srv.authFunc = some f ∧ r.authorization ≠ [] ∧
        f (credentialOf r) req = (true, none))) :
    authStage srv env r svc req logs = postAuthDispatch srv env svc req logs := by
  unfold authStage
  rcases hpass with h | ⟨f, hf, hhdr, hok⟩
  · rw [if_neg (by simp [h])]
  · by_cases ha : srv.config.auth = true
    · rw [if_pos ha]
      simp only [hf, getCredential_eq_ok r hhdr, hok]
      rw [if_neg hhdr, if_neg (by simp)]
    · rw [if_neg ha]

/-- C5: with authentication required and an injected decision capability
that denies (returns `(false, nil)`) at the request's credential, every
request that passes routing and name derivation and carries a non-empty
`Authorization` header is rejected with 401 regardless of credential
content; and when the capability returns an error the status is likewise
401 with the error logged server-side and an empty dispatcher response
body (the error is never sent to the client). -/
theorem auth_deny_or_error_yields_401 (srv : Server) (env : Env)
    (r : HttpRequest) (f : Credential → Request → Bool × Option Str)
    (svc : Service) (rest : Str)
    (hauth : srv.config.auth = true) (hf : srv.authFunc = some f)
    (hroute : findService r.method r.urlPath = some (svc, rest))
    (hname : (r.method = mGET ∧ sfxRepos <:+ r.requestURI) ∨
      (getNamespaceAndRepo rest).2 ≠ [])
    (hhdr : r.authorization ≠ []) :
    (f (credentialOf r) (requestOf srv r rest) = (false, none) →
      statusOf (serveHTTP srv env r).outcome = some 401 ∧
      dispatcherBody (serveHTTP srv env r).outcome = []) ∧
    (∀ allow e, f (credentialOf r) (requestOf srv r rest) = (allow, some e) →
      statusOf (serveHTTP srv env r).outcome = some 401 ∧
      LogEntry.error ctxAuth e ∈ (serveHTTP srv env r).logs ∧
      dispatcherBody (serveHTTP srv env r).outcome = []) := by
  rw [serveHTTP_eq_authStage srv env r svc rest hroute hname]
  unfold authStage
  rw [if_pos hauth]
  simp only [hf, getCredential_eq_ok r hhdr]
  rw [if_neg hhdr]
  constructor
  · intro hdeny
    simp only [hdeny]
    rw [if_pos (Or.inl trivial)]
    exact ⟨rfl, rfl⟩
  · intro allow e hae
    simp only [hae]
    have hc : allow = false ∨ (some e).isSome = true := Or.inr rfl
    rw [if_pos hc]
    refine ⟨rfl, ?_, rfl⟩
    simp

theorem auth_deny_or_error_yields_401_witness :
    srvDeny.config.auth = true ∧
    srvDeny.authFunc = some fDeny ∧
    findService r5.method r5.urlPath = some (svcInfoRefs, "/ns/r.git".toList) ∧
    r5.authorization ≠ [] ∧
    ((fDeny (credentialOf r5) (requestOf srvDeny r5 "/ns/r.git".toList) = (false, none) →
        statusOf (serveHTTP srvDeny envEmpty r5).outcome = some 401 ∧
        dispatcherBody (serveHTTP srvDeny envEmpty r5).outcome = []) ∧
      (∀ allow e,
        fDeny (credentialOf r5) (requestOf srvDeny r5 "/ns/r.git".toList) = (allow, some e) →
        statusOf (serveHTTP srvDeny envEmpty r5).outcome = some 401 ∧
        LogEntry.error ctxAuth e ∈ (serveHTTP srvDeny envEmpty r5).logs ∧
        dispatcherBody (serveHTTP srvDeny envEmpty r5).outcome = [])) :=
  ⟨rfl, rfl, by decide, by decide,
    auth_deny_or_error_yields_401 srvDeny envEmpty r5 fDeny svcInfoRefs
      "/ns/r.git".toList rfl rfl (by decide) (Or.inr (by decide)) (by decide)⟩

/-- C6 counterexample: with authentication required but no decision
capability injected (`AuthFunc` nil), a routed, name-bearing request with
no `Authorization` header is answered 401 by the no-backend branch, which
does NOT set the `WWW-Authenticate` challenge header — refuting the claim
that the response always carries the challenge header. -/
theorem missing_header_challenge_counterexample :
    srvNoBackend.config.auth = true ∧
    findService r6.method r6.urlPath = some (svcInfoRefs, "/ns/r.git".toList) ∧
    (getNamespaceAndRepo "/ns/r.git".toList).2 ≠ [] ∧
    r6.authorization = [] ∧
    statusOf (serveHTTP srvNoBackend envEmpty r6).outcome = some 401 ∧
    wwwAuthenticateOf (serveHTTP srvNoBackend envEmpty r6).outcome = none := by
  decide

/-- C6 amended: for every routed, name-bearing request when the server is
configured to require authentication AND an auth decision capability is
injected, a request with no `Authorization` header is answered 401 and the
response carries the `WWW-Authenticate: Basic realm=""` challenge header
(without an injected capability the status is still 401 but the challenge
header is absent). -/
theorem missing_header_yields_401_with_challenge (srv : Server) (env : Env)
    (r : HttpRequest) (f : Credential → Request → Bool × Option Str)
    (svc : Service) (rest : Str)
    (hauth : srv.config.auth = true) (hf : srv.authFunc = some f)
    (hroute : findService r.method r.urlPath = some (svc, rest))
    (hname : (r.method = mGET ∧ sfxRepos <:+ r.requestURI) ∨
      (getNamespaceAndRepo rest).2 ≠ [])
    (hhdr : r.authorization = []) :
    statusOf (serveHTTP srv env r).outcome = some 401 ∧
    wwwAuthenticateOf (serveHTTP srv env r).outcome =
      some "Basic realm=\"\"".toList := by
  rw [serveHTTP_eq_authStage srv env r svc rest hroute hname]
  unfold authStage
  rw [if_pos hauth]
  simp only [hf]
  rw [if_pos hhdr]
  exact ⟨rfl, rfl⟩

theorem missing_header_yields_401_with_challenge_witness :
    srvDeny.config.auth = true ∧
    srvDeny.authFunc = some fDeny ∧
    findService r6.method r6.urlPath = some (svcInfoRefs, "/ns/r.git".toList) ∧
    r6.authorization = [] ∧
    (statusOf (serveHTTP srvDeny envEmpty r6).outcome = some 401 ∧
      wwwAuthenticateOf (serveHTTP srvDeny envEmpty r6).outcome =
        some "Basic realm=\"\"".toList) :=
  ⟨rfl, rfl, by decide, rfl,
    missing_header_yields_401_with_challenge srvDeny envEmpty r6 fDeny svcInfoRefs
      "/ns/r.git".toList rfl rfl (by decide) (Or.inr (by decide)) rfl⟩

/-- C7: for every routed, name-bearing, non-carve-out request through a
passing auth gate, on a server with auto-create enabled whose target
repository does not exist at dispatch time: the create operation is
invoked (before any handler can run); an init failure is logged but does
not by itself abort the request; the existence re-check fails closed —
when the repository still does not exist afterwards the response is
not-found and the handler is never invoked, and when it does exist the
handler runs. -/
theorem autocreate_invoked_and_fails_closed (srv : Server) (env : Env)
    (r : HttpRequest) (svc : Service) (rest : Str) (req : Request)
    (hreq : req = requestOf srv r rest)
    (hroute : findService r.method r.urlPath = some (svc, rest))
    (hname : (getNamespaceAndRepo rest).2 ≠ [])
    (hpass : srv.config.auth = false ∨
      (∃ f, srv.authFunc = some f ∧ r.authorization ≠ [] ∧
        f (credentialOf r) req = (true, none)))
    (hcarve : ¬ ((req.method = mPOST ∧ sfxRepo <:+ req.requestURI) ∨
      (req.method = mGET ∧ sfxRepos <:+ req.requestURI)))
    (hac : srv.config.autoCreate = true)
    (hmissing : ¬ repoExists env.fs req.repoPath) :
    (serveHTTP srv env r).autoCreateTried = true ∧
    (∀ e, env.initErr = some e →
      LogEntry.error ctxRepoInit e ∈ (serveHTTP srv env r).logs) ∧
    (¬ repoExists env.initFs req.repoPath →
      (serveHTTP srv env r).outcome = DispatchOutcome.notFound) ∧
    (repoExists env.initFs req.repoPath →
      (serveHTTP srv env r).outcome =
        DispatchOutcome.dispatched svc.handler req) := by
  subst hreq
  rw [serveHTTP_eq_authStage srv env r svc rest hroute (Or.inr hname),
    authStage_pass srv env r svc _ _ hpass]
  unfold postAuthDispatch
  rw [if_neg hcarve, if_pos ⟨hmissing, hac⟩]
  refine ⟨?_, ?_, ?_, ?_⟩
  · split <;> rfl
  · intro e he
    split <;> simp [initLog, he]
  · intro hm2
    rw [if_pos hm2]
  · intro hex
    rw [if_neg (not_not_intro hex)]

theorem autocreate_invoked_and_fails_closed_witness :
    srvAuto.config.autoCreate = true ∧
    findService r7.method r7.urlPath = some (svcInfoRefs, "/ns/r.git".toList) ∧
    ¬ repoExists envInitFail.fs (requestOf srvAuto r7 "/ns/r.git".toList).repoPath ∧
    ((serveHTTP srvAuto envInitFail r7).autoCreateTried = true ∧
      (∀ e, envInitFail.initErr = some e →
        LogEntry.error ctxRepoInit e ∈ (serveHTTP srvAuto envInitFail r7).logs) ∧
      (¬ repoExists envInitFail.initFs (requestOf srvAuto r7 "/ns/r.git".toList).repoPath →
        (serveHTTP srvAuto envInitFail r7).outcome = DispatchOutcome.notFound) ∧
      (repoExists envInitFail.initFs (requestOf srvAuto r7 "/ns/r.git".toList).repoPath →
        (serveHTTP srvAuto envInitFail r7).outcome =
          DispatchOutcome.dispatched svcInfoRefs.handler
            (requestOf srvAuto r7 "/ns/r.git".toList))) :=
  ⟨rfl, by decide, by decide,
    autocreate_invoked_and_fails_closed srvAuto envInitFail r7 svcInfoRefs
      "/ns/r.git".toList (requestOf srvAuto r7 "/ns/r.git".toList) rfl (by decide)
      (by decide) (Or.inl rfl) (by decide) rfl (by decide)⟩

/-- C8: every create-repository request (POST with the `/repo` suffix) and
every list-repositories request (GET with the `/repos` suffix) that passes
routing, name derivation and authentication dispatches directly to its
handler, bypassing the repository-existence check and the auto-create
step — regardless of the filesystem state, so neither endpoint requires a
pre-existing target repository. -/
theorem create_and_list_bypass_existence_check (srv : Server) (env : Env)
    (r : HttpRequest) (svc : Service) (rest : Str) (req : Request)
    (hreq : req = requestOf srv r rest)
    (hroute : findService r.method r.urlPath = some (svc, rest))
    (hname : (r.method = mGET ∧ sfxRepos <:+ r.requestURI) ∨
      (getNamespaceAndRepo rest).2 ≠ [])
    (hpass : srv.config.auth = false ∨
      (∃ f, srv.authFunc = some f ∧ r.authorization ≠ [] ∧
        f (credentialOf r) req = (true, none)))
    (hcarve : (req.method = mPOST ∧ sfxRepo <:+ req.requestURI) ∨
      (req.method = mGET ∧ sfxRepos <:+ req.requestURI)) :
    (serveHTTP srv env r).outcome = DispatchOutcome.dispatched svc.handler req ∧
    (serveHTTP srv env r).autoCreateTried = false := by
  subst hreq
  rw [serveHTTP_eq_authStage srv env r svc rest hroute hname,
    authStage_pass srv env r svc _ _ hpass]
  unfold postAuthDispatch
  rw [if_pos hcarve]
  exact ⟨rfl, rfl⟩

theorem create_and_list_bypass_existence_check_witness :
    findService r8.method r8.urlPath = some (svcCreateRepo, "/ns/r.git".toList) ∧
    (r8.method = mPOST ∧ sfxRepo <:+ r8.requestURI) ∧
    ¬ repoExists envEmpty.fs (requestOf srvAuto r8 "/ns/r.git".toList).repoPath ∧
    ((serveHTTP srvAuto envEmpty r8).outcome =
        DispatchOutcome.dispatched svcCreateRepo.handler
          (requestOf srvAuto r8 "/ns/r.git".toList) ∧
      (serveHTTP srvAuto envEmpty r8).autoCreateTried = false) :=
  ⟨by decide, by decide, by decide,
    create_and_list_bypass_existence_check srvAuto envEmpty r8 svcCreateRepo
      "/ns/r.git".toList (requestOf srvAuto r8 "/ns/r.git".toList) rfl (by decide)
      (Or.inr (by decide)) (Or.inl rfl) (Or.inl (by decide))⟩

theorem findService_removes_first_occurrence_witness :
    findService mGET "/ns/r.git/info/refs".toList =
      some (⟨mGET, sfxInfoRefs, HandlerId.getInfoRefs, []⟩, "/ns/r.git".toList) ∧
    ∃ a b, "/ns/r.git/info/refs".toList =
        a ++ (⟨mGET, sfxInfoRefs, HandlerId.getInfoRefs, []⟩ : Service).suffix ++ b ∧
      "/ns/r.git".toList = a ++ b ∧
      ∀ k, k < a.length →
        ¬ (⟨mGET, sfxInfoRefs, HandlerId.getInfoRefs, []⟩ : Service).suffix <+:
            ("/ns/r.git/info/refs".toList).drop k :=
  ⟨by decide,
    findService_removes_first_occurrence mGET "/ns/r.git/info/refs".toList
      ⟨mGET, sfxInfoRefs, HandlerId.getInfoRefs, []⟩ "/ns/r.git".toList (by decide)⟩

end Gitkit
